import Mathlib

/-!
Shallow embedding of `rust-lib/flowy-document/src/services/doc/revision/rev_store.rs`
(AppFlowy revision reconciliation store) together with the external types it
relies on, modelled from the specification where their source is not available.

Payload bytes are modelled opaquely as strings; durable storage and the remote
collaborator are modelled as explicit parameters (their results passed in),
matching the spec's description of them as external collaborators.
-/

namespace RevStore

/-- Opaque delta payload bytes (`Vec<u8>` in the source), modelled as a string. -/
abbrev Bytes := String

/-- Modelled from the spec: revision origin (`RevType` in `entities::doc`, not in
the provided sources): `Local` or `Remote`. -/
inductive RevType where
  | Local
  | Remote
deriving DecidableEq, Repr

/-- Modelled from the spec: acknowledgment state (`RevState` in `sql_tables`,
not in the provided sources): `Local` until acknowledged, then `Acked`. -/
inductive RevState where
  | Local
  | Acked
deriving DecidableEq, Repr

/-- Modelled from the spec: an immutable revision value
(`Revision` in `entities::doc`, not in the provided sources). -/
structure Revision where
  doc_id : String
  base_rev_id : Int
  rev_id : Int
  delta_data : Bytes
  ty : RevType
deriving DecidableEq, Repr

/-- Modelled from the spec: the cache's value type (`RevisionContext` in
`revision::model`, not in the provided sources): a revision plus its state. -/
structure RevisionContext where
  revision : Revision
  state : RevState
deriving DecidableEq, Repr

/-- Modelled from the spec: `RevisionContext::new` wraps a freshly ingested
revision with state `Local`. -/
def RevisionContext.new (r : Revision) : RevisionContext :=
  { revision := r, state := RevState.Local }

/-- Modelled from the spec: a pending-queue entry (`PendingRevId` in
`revision::model`, not in the provided sources). The one-shot acknowledgment
notifier is abstracted away; its firing is folded into `handle_revision_acked`. -/
structure PendingRevId where
  rev_id : Int
deriving DecidableEq, Repr

/-- Modelled from the spec: `PendingRevId::finish(ack_id)` reports whether this
entry's id matches the acknowledged id (firing its notifier as a side effect). -/
def PendingRevId.finish (p : PendingRevId) (ack_id : Int) : Bool :=
  p.rev_id == ack_id

/-- Error taxonomy of `DocError` as used by the store. Remote and storage
errors carry a message so distinct failures are distinguishable. -/
inductive DocError where
  | duplicateRev
  | notFound
  | storage (msg : String)
  | remote (msg : String)
deriving DecidableEq, Repr

/-- The in-memory revision cache (`DashMap<i64, RevisionContext>`), modelled as
an association list from revision id to context. -/
abbrev Cache := List (Int × RevisionContext)

/-- Whether the cache holds an entry for `k` (`DashMap::contains_key`). -/
def Cache.containsKey (c : Cache) (k : Int) : Bool :=
  c.any (fun kv => kv.1 == k)

/-- Look up the context cached under `k` (`DashMap::get`). -/
def Cache.get (c : Cache) (k : Int) : Option RevisionContext :=
  (c.find? (fun kv => kv.1 == k)).map (fun kv => kv.2)

/-- Insert a context under `k` (`DashMap::insert`); a pre-existing entry for
`k` is replaced. -/
def Cache.insert (c : Cache) (k : Int) (v : RevisionContext) : Cache :=
  if c.containsKey k then
    c.map (fun kv => if kv.1 == k then (k, v) else kv)
  else
    c ++ [(k, v)]

/-- Keep only the entries satisfying the predicate (`DashMap::retain`). -/
def Cache.retainEntries (c : Cache) (p : Int → RevisionContext → Bool) : Cache :=
  c.filter (fun kv => p kv.1 kv.2)

/-- Whether the cache is empty (`DashMap::is_empty`). -/
def Cache.isEmptyMap (c : Cache) : Bool :=
  c.isEmpty

/-- Number of cache entries whose key is `k`. -/
def Cache.countKey (c : Cache) (k : Int) : Nat :=
  (c.filter (fun kv => kv.1 == k)).length

/-- Mark the entry under `rid`, if present, as `Acked` (the acknowledgment
listener's `revs_map.get_mut(&rev_id)` update). -/
def Cache.setAcked (c : Cache) (rid : Int) : Cache :=
  c.map (fun kv =>
    if kv.1 == rid then (kv.1, { kv.2 with state := RevState.Acked }) else kv)

/-- Handle to a scheduled (not yet fired) flush task; `fireAt` records the
instant the 300 ms sleep elapses, measured from the scheduling call. -/
structure FlushTask where
  fireAt : Nat
deriving DecidableEq, Repr

/-- State of `RevisionStore` visible to the embedded operations: the revision
cache, the pending queue, the log of ids announced on the pending channel, and
the scheduled-flush slot (`delay_save`). -/
structure StoreState where
  cache : Cache
  pending : List PendingRevId
  channel : List Int
  delay_save : Option FlushTask
deriving DecidableEq, Repr

/-- `RevisionStore::save_revisions`, called at instant `now`: take and abort
the in-flight flush handle if any; if the cache is empty, schedule nothing;
otherwise schedule a fresh flush firing 300 ms later. Returns the new
`delay_save` slot and whether a prior task was aborted. -/
def save_revisions (cache : Cache) (prev : Option FlushTask) (now : Nat) :
    Option FlushTask × Bool :=
  let cancelled := prev.isSome
  if cache.isEmptyMap then
    (none, cancelled)
  else
    (some { fireAt := now + 300 }, cancelled)

/-- Snapshot of the cached ids taken when the flush timer fires
(`revs_map.iter().map(|kv| kv.key().clone())`). -/
def flushSnapshotIds (c : Cache) : List Int :=
  c.map (fun kv => kv.1)

/-- Snapshot of the batch handed to `Persistence::create_revs`
(`revs_map.iter().map(|kv| (kv.revision.clone(), kv.state))`). -/
def flushBatch (c : Cache) : List (Revision × RevState) :=
  c.map (fun kv => (kv.2.revision, kv.2.state))

/-- The eviction performed after a successful batch write
(`revs_map.retain(|k, _| !ids.contains(k))`), applied to the cache as it
stands at eviction time (which may have gained entries since the snapshot). -/
def flushRetain (later : Cache) (ids : List Int) : Cache :=
  later.filter (fun kv => !(ids.contains kv.1))

/-- Body of the spawned flush task once the timer fires uncancelled:
`atFire` is the cache when the snapshot is taken, `atRetain` the (possibly
grown) cache when the eviction runs, `writeResult` the outcome of
`persistence.create_revs`. On success exactly the snapshot ids are evicted;
on failure the error is logged and the cache is left as it stands. The task
returns no error to any caller. -/
def flushFire (atFire atRetain : Cache) (writeResult : Except DocError Unit) : Cache :=
  match writeResult with
  | .ok _ => flushRetain atRetain (flushSnapshotIds atFire)
  | .error _ => atRetain

/-- `RevisionStore::handle_new_revision`, called at instant `now`. A duplicate
id in the cache fails with `DuplicateRevision` before any mutation; otherwise a
pending entry is appended, the revision is inserted as `Local`, its id is
announced on the pending channel, and `save_revisions` runs. The pair carries
the call's result and the store state after the call. -/
def handle_new_revision (s : StoreState) (r : Revision) (now : Nat) :
    Except DocError Unit × StoreState :=
  if s.cache.containsKey r.rev_id then
    (.error DocError.duplicateRev, s)
  else
    let pending := s.pending ++ [{ rev_id := r.rev_id }]
    let cache := s.cache.insert r.rev_id (RevisionContext.new r)
    let channel := s.channel ++ [r.rev_id]
    let ds := (save_revisions cache s.delay_save now).1
    (.ok (), { cache := cache, pending := pending, channel := channel, delay_save := ds })

/-- `RevisionStore::handle_revision_acked`, called at instant `now`: retain the
pending entries not finished by `rid` (the removed entry's notifier fires,
which the spawned listener turns into marking the cache entry `Acked` — the
listener only fires when the id was actually pending), then `save_revisions`.
The call never returns an error. -/
def handle_revision_acked (s : StoreState) (rid : Int) (now : Nat) : StoreState :=
  let fired := s.pending.any (fun p => p.finish rid)
  let cache := if fired then s.cache.setAcked rid else s.cache
  let pending := s.pending.filter (fun p => !(p.finish rid))
  let ds := (save_revisions cache s.delay_save now).1
  { s with cache := cache, pending := pending, delay_save := ds }

/-- Modelled from the spec: `RevisionRange` (in `entities::doc`, not in the
provided sources) is an inclusive id range iterated in ascending order. -/
structure RevisionRange where
  start : Int
  stop : Int
deriving DecidableEq, Repr

/-- Modelled from the spec: `RevisionRange::iter` yields the ids from `start`
to `stop` inclusive, in ascending order. -/
def RevisionRange.iter (r : RevisionRange) : List Int :=
  (List.range (r.stop - r.start + 1).toNat).map (fun i : Nat => r.start + (i : Int))

/-- Modelled from the spec: `RevisionRange::len` is the number of ids in the
inclusive range. -/
def RevisionRange.len (r : RevisionRange) : Nat :=
  (r.stop - r.start + 1).toNat

/-- `RevisionStore::revs_in_range`: collect the cached revisions over the
range's ids in order; if every id was found return them directly, otherwise
delegate the whole range to the durable adapter's range read, whose outcome is
passed in as `stored`. -/
def revs_in_range (cache : Cache) (range : RevisionRange)
    (stored : RevisionRange → Except DocError (List Revision)) :
    Except DocError (List Revision) :=
  let revs := range.iter.filterMap (fun rid => (cache.get rid).map (fun ctx => ctx.revision))
  if revs.length == range.len then
    .ok revs
  else
    stored range

/-- Modelled from the spec: a document snapshot (`Doc` in `entities::doc`, not
in the provided sources): id, rendered content, and the identifiers of the
chain's last revision. -/
structure Doc where
  id : String
  data : String
  rev_id : Int
  base_rev_id : Int
deriving DecidableEq, Repr

/-- A durable revision-table row as read back by
`rev_sql.read_rev_tables`: the fields `fetch_from_local` consumes. -/
structure RevTableRow where
  base_rev_id : Int
  rev_id : Int
  delta_data : Bytes
deriving DecidableEq, Repr

/-- Modelled from the spec: the external OT delta algebra (`flowy_ot::core`,
an external collaborator per the spec): an empty delta, fallible composition,
fallible payload deserialization, and rendering to the content representation. -/
structure DeltaOps (Δ : Type) where
  empty : Δ
  compose : Δ → Δ → Except DocError Δ
  fromBytes : Bytes → Except String Δ
  toJson : Δ → String

/-- The reconstruction loop of `fetch_from_local`: starting from `delta`, for
each row deserialize its payload — on failure log and skip; on success compose
it onto the accumulator, propagating any compose error. -/
def composeChain {Δ : Type} (ops : DeltaOps Δ) (delta : Δ) (rows : List RevTableRow) :
    Except DocError Δ :=
  match rows with
  | [] => .ok delta
  | row :: rest =>
    match ops.fromBytes row.delta_data with
    | .ok local_delta =>
      match ops.compose delta local_delta with
      | .ok composed => composeChain ops composed rest
      | .error e => .error e
    | .error _ => composeChain ops delta rest

/-- `fetch_from_local`: fail with `NotFound` on an empty chain; otherwise take
the last row's identifiers, fold the chain's deltas from the empty delta, and
render the result. `rows` is what `read_rev_tables` returned for the document. -/
def fetch_from_local {Δ : Type} (ops : DeltaOps Δ) (doc_id : String)
    (rows : List RevTableRow) : Except DocError Doc :=
  match rows.getLast? with
  | none => .error DocError.notFound
  | some last =>
    match composeChain ops ops.empty rows with
    | .error e => .error e
    | .ok delta =>
      .ok { id := doc_id, data := ops.toJson delta,
            rev_id := last.rev_id, base_rev_id := last.base_rev_id }

/-- Modelled from the spec: `revision_from_doc` (in `entities::doc`, not in the
provided sources) synthesizes a single revision carrying the snapshot, with the
given origin and the snapshot's identifiers. -/
def revision_from_doc (doc : Doc) (ty : RevType) : Revision :=
  { doc_id := doc.id, base_rev_id := doc.base_rev_id, rev_id := doc.rev_id,
    delta_data := doc.data, ty := ty }

/-- `RevisionStore::fetch_document`: try local reconstruction over `rows`; on
any local failure fetch the snapshot from the remote collaborator (outcome
passed in as `remote`), synthesize a `Remote` revision from it and persist it
as `Acked` (the durable write's outcome passed in as `persistResult`),
returning the snapshot. The second component records the batch handed to
`create_revs`, empty when no durable write was attempted. -/
def fetch_document {Δ : Type} (ops : DeltaOps Δ) (doc_id : String)
    (rows : List RevTableRow) (remote : Except DocError Doc)
    (persistResult : Except DocError Unit) :
    Except DocError Doc × List (Revision × RevState) :=
  match fetch_from_local ops doc_id rows with
  | .ok doc => (.ok doc, [])
  | .error _ =>
    match remote with
    | .error e => (.error e, [])
    | .ok doc =>
      let revision := revision_from_doc doc RevType.Remote
      match persistResult with
      | .error e => (.error e, [(revision, RevState.Acked)])
      | .ok _ => (.ok doc, [(revision, RevState.Acked)])

/-- The store operations that mutate the in-memory state, used to state
invariants that hold across every operation. A flush carries the snapshot ids
taken at fire time and the durable write's outcome. -/
inductive StoreOp where
  | newRev (r : Revision)
  | acked (rid : Int)
  | flush (snapIds : List Int) (writeResult : Except DocError Unit)

/-- Apply one operation to the store state at instant `now`. -/
def applyOp (s : StoreState) (op : StoreOp) (now : Nat) : StoreState :=
  match op with
  | .newRev r => (handle_new_revision s r now).2
  | .acked rid => handle_revision_acked s rid now
  | .flush snapIds writeResult =>
    match writeResult with
    | .ok _ => { s with cache := flushRetain s.cache snapIds }
    | .error _ => s

/-- Spec-side description of reconstruction: the deltas of the chain that
deserialize successfully, in chain order — the revisions whose payload fails
to deserialize are skipped. -/
def decodableDeltas {Δ : Type} (ops : DeltaOps Δ) (rows : List RevTableRow) : List Δ :=
  rows.filterMap (fun row => (ops.fromBytes row.delta_data).toOption)

/-- Spec-side description of reconstruction: fold fallible composition over a
list of deltas, starting from `delta`. -/
def foldCompose {Δ : Type} (ops : DeltaOps Δ) (delta : Δ) (ds : List Δ) :
    Except DocError Δ :=
  match ds with
  | [] => .ok delta
  | d :: rest =>
    match ops.compose delta d with
    | .ok composed => foldCompose ops composed rest
    | .error e => .error e

/-- A small concrete delta algebra used to exercise the fetch path on concrete
inputs: a delta is a list of naturals, composition appends but rejects `[9]`,
and deserialization rejects the empty payload and otherwise yields the
payload's length. -/
def listDeltaOps : DeltaOps (List Nat) where
  empty := []
  compose a b := if b = [9] then .error (DocError.storage "compose failed") else .ok (a ++ b)
  fromBytes s := if s = "" then .error "empty payload" else .ok [s.length]
  toJson d := toString d

/-- A sample revision used to exercise the store operations on concrete inputs. -/
def rev1 : Revision :=
  { doc_id := "doc", base_rev_id := 0, rev_id := 1, delta_data := "ab", ty := RevType.Local }

/-- A second sample revision with a distinct id. -/
def rev2 : Revision :=
  { doc_id := "doc", base_rev_id := 1, rev_id := 2, delta_data := "cde", ty := RevType.Local }

/-- A sample store state holding `rev1` as `Local` with its id pending. -/
def state1 : StoreState :=
  { cache := [(1, RevisionContext.new rev1)],
    pending := [{ rev_id := 1 }],
    channel := [1],
    delay_save := some { fireAt := 300 } }

/-- A sample store state whose cached entry for id 1 has already been acked. -/
def state1Acked : StoreState :=
  { cache := [(1, { revision := rev1, state := RevState.Acked })],
    pending := [],
    channel := [1],
    delay_save := none }

/-- A sample document snapshot returned by the remote collaborator. -/
def docRemote : Doc :=
  { id := "doc", data := "[2]", rev_id := 7, base_rev_id := 6 }

/-- Membership in the cache left by a successful flush eviction: an entry
survives `flushRetain` iff it was present and its key is not a snapshot id. -/
theorem mem_flushRetain (later : Cache) (ids : List Int) (kv : Int × RevisionContext) :
    kv ∈ flushRetain later ids ↔ kv ∈ later ∧ kv.1 ∉ ids := by
  simp [flushRetain, List.mem_filter]

/-- C2: every call to `save_revisions` first aborts the in-flight scheduled
flush task when there is one; with an empty cache it schedules nothing, and
otherwise it schedules exactly one flush firing 300 ms after this call. -/
theorem save_revisions_debounce (cache : Cache) (prev : Option FlushTask) (now : Nat) :
    (save_revisions cache prev now).2 = prev.isSome ∧
    (cache.isEmptyMap = true → (save_revisions cache prev now).1 = none) ∧
    (cache.isEmptyMap = false →
      (save_revisions cache prev now).1 = some { fireAt := now + 300 }) := by
  unfold save_revisions
  cases h : cache.isEmptyMap <;> simp [h]

/-- Witness for C2 at concrete inputs: a nonempty cache with a pending flush
handle reschedules to fire 300 ms after the call. -/
theorem save_revisions_debounce_witness :
    (save_revisions [(1, RevisionContext.new rev1)] (some { fireAt := 5 }) 7).1
      = some { fireAt := 307 } :=
  (save_revisions_debounce [(1, RevisionContext.new rev1)] (some { fireAt := 5 }) 7).2.2 rfl

/-- C3: when a flush fires uncancelled and the batched write succeeds, exactly
the ids snapshotted at fire time are evicted: every surviving entry comes from
the cache at eviction time and has no snapshotted id, and every entry of the
eviction-time cache whose id is outside the snapshot (in particular one
inserted after the snapshot) survives. -/
theorem flush_success_evicts_snapshot (atFire atRetain : Cache) :
    (∀ kv ∈ flushFire atFire atRetain (.ok ()),
        kv ∈ atRetain ∧ kv.1 ∉ flushSnapshotIds atFire) ∧
    (∀ kv ∈ atRetain, kv.1 ∉ flushSnapshotIds atFire →
        kv ∈ flushFire atFire atRetain (.ok ())) := by
  constructor
  · intro kv hkv
    exact (mem_flushRetain atRetain (flushSnapshotIds atFire) kv).mp hkv
  · intro kv hkv hout
    exact (mem_flushRetain atRetain (flushSnapshotIds atFire) kv).mpr ⟨hkv, hout⟩

/-- Witness for C3 at concrete inputs: with id 1 snapshotted and id 2 inserted
after the snapshot, entry 2 survives the successful flush. -/
theorem flush_success_evicts_snapshot_witness :
    (2, RevisionContext.new rev2) ∈
      flushFire [(1, RevisionContext.new rev1)]
        [(1, RevisionContext.new rev1), (2, RevisionContext.new rev2)] (.ok ()) :=
  (flush_success_evicts_snapshot [(1, RevisionContext.new rev1)]
      [(1, RevisionContext.new rev1), (2, RevisionContext.new rev2)]).2
    (2, RevisionContext.new rev2) (by decide) (by decide)

/-- C4: when the flush's durable batch write fails, the cache is left exactly
as it stands — no entry is removed; the task's result type surfaces no error
to any caller (the failure is only logged). -/
theorem flush_failure_leaves_cache (atFire atRetain : Cache) (e : DocError) :
    flushFire atFire atRetain (.error e) = atRetain :=
  rfl

/-- The number of cache entries under a key equals the key's multiplicity in
the cache's key list. -/
theorem Cache.countKey_eq_count (c : Cache) (k : Int) :
    c.countKey k = (c.map (fun kv => kv.1)).count k := by
  rw [List.count_eq_countP, List.countP_map, List.countP_eq_length_filter]
  rfl

/-- A cache with pairwise-distinct keys that contains `k` holds exactly one
entry under `k`. -/
theorem Cache.countKey_eq_one (c : Cache) (k : Int)
    (hnd : (c.map (fun kv => kv.1)).Nodup) (h : c.containsKey k = true) :
    c.countKey k = 1 := by
  rw [Cache.countKey_eq_count]
  refine List.count_eq_one_of_mem hnd ?_
  simp only [Cache.containsKey, List.any_eq_true] at h
  obtain ⟨kv, hmem, hk⟩ := h
  exact List.mem_map.mpr ⟨kv, hmem, by simpa using hk⟩

/-- C1: ingesting a revision whose id is already cached fails with
`DuplicateRevision` and leaves the whole store state — cache, pending queue,
pending channel and flush slot — unchanged; with pairwise-distinct cache keys
the cache then holds exactly one entry for that id. -/
theorem handle_new_revision_duplicate (s : StoreState) (r : Revision) (now : Nat)
    (h : s.cache.containsKey r.rev_id = true)
    (hnd : (s.cache.map (fun kv => kv.1)).Nodup) :
    (handle_new_revision s r now).1 = .error DocError.duplicateRev ∧
    (handle_new_revision s r now).2 = s ∧
    ((handle_new_revision s r now).2).cache.countKey r.rev_id = 1 := by
  refine ⟨by simp [handle_new_revision, h], by simp [handle_new_revision, h], ?_⟩
  simp only [handle_new_revision, h, if_true]
  exact Cache.countKey_eq_one s.cache r.rev_id hnd h

/-- Witness for C1 at concrete inputs: re-ingesting `rev1` into `state1`
fails with `DuplicateRevision`, changes nothing, and id 1 stays unique. -/
theorem handle_new_revision_duplicate_witness :
    (handle_new_revision state1 rev1 0).1 = .error DocError.duplicateRev ∧
    (handle_new_revision state1 rev1 0).2 = state1 ∧
    ((handle_new_revision state1 rev1 0).2).cache.countKey rev1.rev_id = 1 :=
  handle_new_revision_duplicate state1 rev1 0 (by decide) (by decide)

/-- C9: acknowledging an id matched by no pending entry is a no-op: the
pending queue, every cache entry (hence every state), and the channel log are
unchanged, and the call returns no error (its type carries none). -/
theorem handle_revision_acked_unknown (s : StoreState) (rid : Int) (now : Nat)
    (h : ∀ p ∈ s.pending, p.rev_id ≠ rid) :
    (handle_revision_acked s rid now).cache = s.cache ∧
    (handle_revision_acked s rid now).pending = s.pending ∧
    (handle_revision_acked s rid now).channel = s.channel := by
  have hfin : ∀ p ∈ s.pending, p.finish rid = false := by
    intro p hp
    simpa [PendingRevId.finish] using h p hp
  have hany : (s.pending.any (fun p => p.finish rid)) = false := by
    simp only [List.any_eq_false]
    intro p hp
    simp [hfin p hp]
  have hfil : s.pending.filter (fun p => !(p.finish rid)) = s.pending := by
    refine List.filter_eq_self.mpr ?_
    intro p hp
    simp [hfin p hp]
  simp [handle_revision_acked, hany, hfil]

/-- Witness for C9 at concrete inputs: acknowledging id 5 against a store with
an empty pending queue changes neither cache nor queue nor channel. -/
theorem handle_revision_acked_unknown_witness :
    (handle_revision_acked state1Acked 5 0).cache = state1Acked.cache ∧
    (handle_revision_acked state1Acked 5 0).pending = state1Acked.pending ∧
    (handle_revision_acked state1Acked 5 0).channel = state1Acked.channel :=
  handle_revision_acked_unknown state1Acked 5 0 (by decide)

/-- `Cache.get` over a cons cell. -/
theorem Cache.get_cons (kv : Int × RevisionContext) (c : Cache) (k : Int) :
    Cache.get (kv :: c) k = if kv.1 == k then some kv.2 else c.get k := by
  cases h : kv.1 == k <;> simp [Cache.get, List.find?_cons, h]

/-- A successful lookup in a prefix survives appending entries. -/
theorem Cache.get_append_of_some (c tail : Cache) (k : Int) (ctx : RevisionContext)
    (h : c.get k = some ctx) : Cache.get (c ++ tail) k = some ctx := by
  induction c with
  | nil => simp [Cache.get, List.find?] at h
  | cons kv rest ih =>
    rw [List.cons_append]
    by_cases hk : kv.1 = k
    · simp only [Cache.get_cons, hk] at h ⊢
      simpa using h
    · simp only [Cache.get_cons] at h ⊢
      simp only [beq_iff_eq, hk, if_false] at h ⊢
      exact ih h

/-- `Cache.setAcked` over a cons cell. -/
theorem Cache.setAcked_cons (kv : Int × RevisionContext) (c : Cache) (k : Int) :
    Cache.setAcked (kv :: c) k =
      (if kv.1 == k then (kv.1, { kv.2 with state := RevState.Acked }) else kv)
        :: c.setAcked k :=
  rfl

/-- Marking `k` as acked rewrites the looked-up context's state exactly when
the looked-up key is `k`, leaving other entries untouched. -/
theorem Cache.get_setAcked (c : Cache) (k rid : Int) :
    (c.setAcked k).get rid =
      (c.get rid).map
        (fun ctx => if rid == k then { ctx with state := RevState.Acked } else ctx) := by
  induction c with
  | nil => rfl
  | cons kv rest ih =>
    rw [Cache.setAcked_cons]
    by_cases hk : kv.1 = k <;> by_cases hr : kv.1 = rid
    · have hrk : rid = k := by rw [← hr]; exact hk
      simp [Cache.get_cons, hk, hr, hrk, ih]
    · have hkr : ¬ k = rid := fun hh => hr (hk ▸ hh)
      simp [Cache.get_cons, hk, hr, hkr, ih]
    · have hrk : ¬ rid = k := by rw [← hr]; exact hk
      simp [Cache.get_cons, hk, hr, hrk, ih]
    · simp [Cache.get_cons, hk, hr, ih]

/-- `flushRetain` over a cons cell. -/
theorem flushRetain_cons (kv : Int × RevisionContext) (c : Cache) (ids : List Int) :
    flushRetain (kv :: c) ids =
      if kv.1 ∈ ids then flushRetain c ids else kv :: flushRetain c ids := by
  by_cases h : kv.1 ∈ ids <;> simp [flushRetain, List.filter_cons, h]

/-- Lookup after a flush eviction: `none` when the key was snapshotted,
otherwise the original lookup. -/
theorem Cache.get_flushRetain (c : Cache) (ids : List Int) (rid : Int) :
    (flushRetain c ids).get rid =
      if rid ∈ ids then none else c.get rid := by
  induction c with
  | nil => by_cases h : rid ∈ ids <;> simp [flushRetain, Cache.get, h]
  | cons kv rest ih =>
    rw [flushRetain_cons]
    by_cases hr : kv.1 = rid
    · subst hr
      by_cases h : kv.1 ∈ ids <;> simp [Cache.get_cons, h, ih]
    · by_cases h : kv.1 ∈ ids <;> by_cases h2 : rid ∈ ids <;>
        simp [Cache.get_cons, h, h2, hr, ih]

/-- Pending entries finished by `rid` never survive the retain pass. -/
theorem filter_finish_any_false (l : List PendingRevId) (rid : Int) :
    ((l.filter (fun p => !(p.finish rid))).any (fun p => p.finish rid)) = false := by
  simp only [List.any_eq_false]
  intro p hp
  have h2 := (List.mem_filter.mp hp).2
  simpa using h2

/-- Acknowledging an id that no pending entry finishes leaves the cache and
the pending queue untouched. -/
theorem acked_noop_of_any_false (t : StoreState) (rid : Int) (now2 : Nat)
    (hany : (t.pending.any (fun p => p.finish rid)) = false) :
    (handle_revision_acked t rid now2).cache = t.cache ∧
    (handle_revision_acked t rid now2).pending = t.pending := by
  have hall := List.any_eq_false.mp hany
  have hfil : t.pending.filter (fun p => !(p.finish rid)) = t.pending :=
    List.filter_eq_self.mpr (fun p hp => by simp [hall p hp])
  simp [handle_revision_acked, hany, hfil]

/-- C8: an `Acked` cache entry stays `Acked` across every store operation —
ingestion, acknowledgment (of any id), and flush — and a second acknowledgment
of the same id is a no-op: it leaves both the cache and the pending queue of
the once-acknowledged store unchanged. -/
theorem acked_state_stable (s : StoreState) (now now2 : Nat) (rid : Int)
    (ctx : RevisionContext)
    (h : s.cache.get rid = some ctx) (hs : ctx.state = RevState.Acked) :
    (∀ op : StoreOp, ∀ ctx2, (applyOp s op now).cache.get rid = some ctx2 →
        ctx2.state = RevState.Acked) ∧
    (handle_revision_acked (handle_revision_acked s rid now) rid now2).cache
        = (handle_revision_acked s rid now).cache ∧
    (handle_revision_acked (handle_revision_acked s rid now) rid now2).pending
        = (handle_revision_acked s rid now).pending := by
  have hany2 : ((handle_revision_acked s rid now).pending.any
      (fun p => p.finish rid)) = false :=
    filter_finish_any_false s.pending rid
  have hnoop := acked_noop_of_any_false (handle_revision_acked s rid now) rid now2 hany2
  refine ⟨?_, hnoop.1, hnoop.2⟩
  intro op ctx2 h2
  cases op with
  | newRev r =>
    cases hc : s.cache.containsKey r.rev_id
    · simp only [applyOp, handle_new_revision, hc, Bool.false_eq_true, if_false,
        Cache.insert] at h2
      rw [Cache.get_append_of_some s.cache _ rid ctx h] at h2
      exact (Option.some.inj h2) ▸ hs
    · simp only [applyOp, handle_new_revision, hc, if_true] at h2
      rw [h] at h2
      exact (Option.some.inj h2) ▸ hs
  | acked rid2 =>
    cases hf : s.pending.any (fun p => p.finish rid2)
    · simp only [applyOp, handle_revision_acked, hf, Bool.false_eq_true, if_false] at h2
      rw [h] at h2
      exact (Option.some.inj h2) ▸ hs
    · simp only [applyOp, handle_revision_acked, hf, if_true, Cache.get_setAcked, h,
        Option.map_some'] at h2
      by_cases hq : rid = rid2
      · simp only [beq_iff_eq, hq, if_true] at h2
        rw [← Option.some.inj h2]
      · simp only [beq_iff_eq, hq, if_false] at h2
        exact (Option.some.inj h2) ▸ hs
  | flush ids res =>
    cases res with
    | ok u =>
      simp only [applyOp, Cache.get_flushRetain] at h2
      by_cases hcm : rid ∈ ids
      · simp [hcm] at h2
      · rw [if_neg hcm, h] at h2
        exact (Option.some.inj h2) ▸ hs
    | error e =>
      simp only [applyOp] at h2
      rw [h] at h2
      exact (Option.some.inj h2) ▸ hs

/-- Witness for C8 at concrete inputs: re-acknowledging id 1 of an
already-acked store leaves the cache of the once-acked store unchanged. -/
theorem acked_state_stable_witness :
    (handle_revision_acked (handle_revision_acked state1Acked 1 0) 1 5).cache
      = (handle_revision_acked state1Acked 1 0).cache :=
  (acked_state_stable state1Acked 0 5 1 { revision := rev1, state := RevState.Acked }
    (by decide) (by decide)).2.1

/-- The range iterator enumerates exactly `len` ids. -/
theorem RevisionRange.length_iter (r : RevisionRange) : r.iter.length = r.len := by
  rw [RevisionRange.iter, List.length_map, List.length_range]
  rfl

/-- A `filterMap` whose function succeeds on every element preserves length. -/
theorem length_filterMap_of_isSome {α β : Type} (f : α → Option β) (l : List α)
    (h : ∀ a ∈ l, (f a).isSome) : (l.filterMap f).length = l.length := by
  induction l with
  | nil => rfl
  | cons a rest ih =>
    obtain ⟨b, hb⟩ := Option.isSome_iff_exists.mp (h a (List.mem_cons_self a rest))
    simp [List.filterMap_cons, hb,
      ih (fun x hx => h x (List.mem_cons_of_mem a hx))]

/-- A `filterMap` whose function fails on some element shortens the list. -/
theorem length_filterMap_lt {α β : Type} (f : α → Option β) (l : List α) (a : α)
    (ha : a ∈ l) (hf : f a = none) : (l.filterMap f).length < l.length := by
  induction l with
  | nil => cases ha
  | cons x rest ih =>
    rcases List.mem_cons.mp ha with h1 | h1
    · subst h1
      simp only [List.filterMap_cons, hf, List.length_cons]
      exact Nat.lt_succ_of_le (List.length_filterMap_le f rest)
    · cases hx : f x
      · simp only [List.filterMap_cons, hx, List.length_cons]
        exact Nat.lt_succ_of_lt (ih h1)
      · simp only [List.filterMap_cons, hx, List.length_cons]
        exact Nat.succ_lt_succ (ih h1)

/-- C5: if every id of the inclusive ascending range is cached, `revs_in_range`
answers from the cache alone, returning the cached revisions in range order;
if any id is missing, it returns exactly the durable adapter's range read over
the whole range, never merging the two sources. -/
theorem revs_in_range_cache_or_storage (cache : Cache) (range : RevisionRange)
    (stored : RevisionRange → Except DocError (List Revision)) :
    ((∀ rid ∈ range.iter, (cache.get rid).isSome) →
      revs_in_range cache range stored =
        .ok (range.iter.filterMap
          (fun rid => (cache.get rid).map (fun ctx => ctx.revision)))) ∧
    ((∃ rid ∈ range.iter, cache.get rid = none) →
      revs_in_range cache range stored = stored range) := by
  constructor
  · intro hall
    have hlen : (range.iter.filterMap
        (fun rid => (cache.get rid).map (fun ctx => ctx.revision))).length = range.len := by
      rw [length_filterMap_of_isSome _ _ (fun a ha => by
        obtain ⟨ctx, hctx⟩ := Option.isSome_iff_exists.mp (hall a ha)
        simp [hctx])]
      exact RevisionRange.length_iter range
    simp [revs_in_range, hlen]
  · rintro ⟨rid, hmem, hnone⟩
    have hlt : (range.iter.filterMap
        (fun rid => (cache.get rid).map (fun ctx => ctx.revision))).length
          < range.iter.length :=
      length_filterMap_lt _ _ rid hmem (by simp [hnone])
    have hne : (range.iter.filterMap
        (fun rid => (cache.get rid).map (fun ctx => ctx.revision))).length
          ≠ range.len := by
      rw [← RevisionRange.length_iter range]
      exact Nat.ne_of_lt hlt
    simp [revs_in_range, hne]

/-- A sample cache holding `rev1` and `rev2` under ids 1 and 2. -/
def cacheTwo : Cache :=
  [(1, RevisionContext.new rev1), (2, RevisionContext.new rev2)]

/-- A sample durable range read used to exercise the fallback path. -/
def storedEmpty : RevisionRange → Except DocError (List Revision) :=
  fun _ => .ok []

/-- Witness for C5 at concrete inputs: range 1..2 is served from the cache,
range 1..3 (id 3 missing) is delegated wholesale to the durable adapter. -/
theorem revs_in_range_cache_or_storage_witness :
    revs_in_range cacheTwo { start := 1, stop := 2 } storedEmpty =
      .ok (({ start := 1, stop := 2 } : RevisionRange).iter.filterMap
        (fun rid => (cacheTwo.get rid).map (fun ctx => ctx.revision))) ∧
    revs_in_range cacheTwo { start := 1, stop := 3 } storedEmpty =
      storedEmpty { start := 1, stop := 3 } :=
  ⟨(revs_in_range_cache_or_storage cacheTwo { start := 1, stop := 2 } storedEmpty).1
      (by decide),
   (revs_in_range_cache_or_storage cacheTwo { start := 1, stop := 3 } storedEmpty).2
      ⟨3, by decide, by decide⟩⟩

/-- The reconstruction loop over an appended chain runs the first part and, if
it succeeded, continues over the second from the accumulated delta. -/
theorem composeChain_append {Δ : Type} (ops : DeltaOps Δ) (d0 : Δ)
    (xs ys : List RevTableRow) :
    composeChain ops d0 (xs ++ ys) =
      match composeChain ops d0 xs with
      | .ok d => composeChain ops d ys
      | .error e => .error e := by
  induction xs generalizing d0 with
  | nil => simp [composeChain]
  | cons row rest ih =>
    simp only [List.cons_append, composeChain]
    cases hfb : ops.fromBytes row.delta_data with
    | ok ld =>
      show (match ops.compose d0 ld with
            | .ok composed => composeChain ops composed (rest ++ ys)
            | .error e => (.error e : Except DocError Δ)) =
          (match (match ops.compose d0 ld with
                  | .ok composed => composeChain ops composed rest
                  | .error e => .error e) with
            | .ok d => composeChain ops d ys
            | .error e => .error e)
      cases hc : ops.compose d0 ld with
      | ok d => exact ih d
      | error e => rfl
    | error e => exact ih d0

/-- Skipping on deserialization failure is exactly composing the successfully
deserialized deltas: the loop equals the fold over `decodableDeltas`. -/
theorem decodableDeltas_cons_ok {Δ : Type} (ops : DeltaOps Δ) (row : RevTableRow)
    (rest : List RevTableRow) (ld : Δ)
    (hfb : ops.fromBytes row.delta_data = .ok ld) :
    decodableDeltas ops (row :: rest) = ld :: decodableDeltas ops rest := by
  simp [decodableDeltas, List.filterMap_cons, hfb, Except.toOption]

theorem decodableDeltas_cons_error {Δ : Type} (ops : DeltaOps Δ) (row : RevTableRow)
    (rest : List RevTableRow) (msg : String)
    (hfb : ops.fromBytes row.delta_data = .error msg) :
    decodableDeltas ops (row :: rest) = decodableDeltas ops rest := by
  simp [decodableDeltas, List.filterMap_cons, hfb, Except.toOption]

theorem composeChain_eq_foldCompose {Δ : Type} (ops : DeltaOps Δ) (d0 : Δ)
    (rows : List RevTableRow) :
    composeChain ops d0 rows = foldCompose ops d0 (decodableDeltas ops rows) := by
  induction rows generalizing d0 with
  | nil => rfl
  | cons row rest ih =>
    cases hfb : ops.fromBytes row.delta_data with
    | ok ld =>
      rw [decodableDeltas_cons_ok ops row rest ld hfb]
      simp only [composeChain, hfb, foldCompose]
      cases hc : ops.compose d0 ld with
      | ok d => exact ih d
      | error e => rfl
    | error e =>
      rw [decodableDeltas_cons_error ops row rest e hfb]
      simp only [composeChain, hfb]
      exact ih d0

/-- C7: over a non-empty durable chain, `fetch_from_local` returns the snapshot
whose identifiers are the chain's last revision's `rev_id`/`base_rev_id` and
whose content renders the fold of compose, from the empty delta, over the
successfully deserialized deltas in chain order — payloads that fail to
deserialize are skipped and the fold continues. -/
theorem fetch_from_local_reconstruction {Δ : Type} (ops : DeltaOps Δ)
    (doc_id : String) (rows : List RevTableRow) (last : RevTableRow)
    (hl : rows.getLast? = some last) :
    fetch_from_local ops doc_id rows =
      (foldCompose ops ops.empty (decodableDeltas ops rows)).map
        (fun delta =>
          { id := doc_id, data := ops.toJson delta,
            rev_id := last.rev_id, base_rev_id := last.base_rev_id }) := by
  unfold fetch_from_local
  rw [hl, composeChain_eq_foldCompose]
  cases hf : foldCompose ops ops.empty (decodableDeltas ops rows) <;>
    simp [Except.map]

/-- A sample durable row whose payload deserializes under `listDeltaOps`. -/
def rowA : RevTableRow := { base_rev_id := 0, rev_id := 1, delta_data := "ab" }

/-- A second sample durable row with a deserializable payload. -/
def rowB : RevTableRow := { base_rev_id := 1, rev_id := 2, delta_data := "cde" }

/-- A sample durable row whose payload fails to deserialize (empty bytes). -/
def rowCorrupt : RevTableRow := { base_rev_id := 2, rev_id := 3, delta_data := "" }

/-- A sample durable row whose payload deserializes to the delta `[9]`, which
`listDeltaOps.compose` rejects. -/
def rowCompose : RevTableRow :=
  { base_rev_id := 3, rev_id := 4, delta_data := "abcdefghi" }

/-- Witness for C7 at concrete inputs: a three-row chain whose middle payload
is corrupt reconstructs from the other two rows, with the last row's ids. -/
theorem fetch_from_local_reconstruction_witness :
    fetch_from_local listDeltaOps "doc" [rowA, rowCorrupt, rowB] =
      (foldCompose listDeltaOps listDeltaOps.empty
          (decodableDeltas listDeltaOps [rowA, rowCorrupt, rowB])).map
        (fun delta =>
          { id := "doc", data := listDeltaOps.toJson delta,
            rev_id := rowB.rev_id, base_rev_id := rowB.base_rev_id }) :=
  fetch_from_local_reconstruction listDeltaOps "doc" [rowA, rowCorrupt, rowB] rowB rfl

/-- C10: if some revision's payload deserializes but composing its delta onto
the accumulated delta fails, the compose error propagates and the whole local
reconstruction fails with it, rather than skipping the revision. -/
theorem compose_error_fails_fetch {Δ : Type} (ops : DeltaOps Δ) (doc_id : String)
    (pre : List RevTableRow) (row : RevTableRow) (rest : List RevTableRow)
    (d ld : Δ) (e : DocError)
    (h1 : composeChain ops ops.empty pre = .ok d)
    (h2 : ops.fromBytes row.delta_data = .ok ld)
    (h3 : ops.compose d ld = .error e) :
    fetch_from_local ops doc_id (pre ++ row :: rest) = .error e := by
  have hcc : composeChain ops ops.empty (pre ++ row :: rest) = .error e := by
    rw [composeChain_append, h1]
    simp [composeChain, h2, h3]
  have hne : (pre ++ row :: rest) ≠ [] := by simp
  obtain ⟨last, hlast⟩ :=
    Option.isSome_iff_exists.mp (List.getLast?_isSome.mpr hne)
  unfold fetch_from_local
  rw [hlast, hcc]

/-- Witness for C10 at concrete inputs: the chain `[rowA, rowCompose]`
deserializes both payloads but composing `[9]` fails, so the fetch fails with
the compose error. -/
theorem compose_error_fails_fetch_witness :
    fetch_from_local listDeltaOps "doc" ([rowA] ++ rowCompose :: []) =
      .error (DocError.storage "compose failed") :=
  compose_error_fails_fetch listDeltaOps "doc" [rowA] rowCompose [] [2] [9]
    (DocError.storage "compose failed") rfl rfl rfl

/-- C6: when local reconstruction fails, `fetch_document` falls back to the
remote collaborator: on remote success it persists exactly one synthesized
revision of origin `Remote` in the `Acked` state and returns the remote
snapshot; if the remote fetch also fails, it fails with the remote error. -/
theorem fetch_document_remote_fallback {Δ : Type} (ops : DeltaOps Δ)
    (doc_id : String) (rows : List RevTableRow) (el : DocError)
    (hl : fetch_from_local ops doc_id rows = .error el) :
    (∀ doc : Doc, fetch_document ops doc_id rows (.ok doc) (.ok ()) =
        (.ok doc, [(revision_from_doc doc RevType.Remote, RevState.Acked)])) ∧
    (∀ doc : Doc, (revision_from_doc doc RevType.Remote).ty = RevType.Remote) ∧
    (∀ er : DocError, ∀ pr : Except DocError Unit,
        fetch_document ops doc_id rows (.error er) pr = (.error er, [])) := by
  refine ⟨?_, fun doc => rfl, ?_⟩
  · intro doc
    unfold fetch_document
    rw [hl]
  · intro er pr
    unfold fetch_document
    rw [hl]

/-- Witness for C6 at concrete inputs: with no local chain, the remote
snapshot is returned and persisted as a single `Acked` `Remote` revision, and
a remote failure is propagated. -/
theorem fetch_document_remote_fallback_witness :
    fetch_document listDeltaOps "doc" [] (.ok docRemote) (.ok ()) =
      (.ok docRemote, [(revision_from_doc docRemote RevType.Remote, RevState.Acked)]) ∧
    fetch_document listDeltaOps "doc" [] (.error (DocError.remote "offline")) (.ok ()) =
      (.error (DocError.remote "offline"), []) :=
  ⟨(fetch_document_remote_fallback listDeltaOps "doc" [] DocError.notFound rfl).1
      docRemote,
   (fetch_document_remote_fallback listDeltaOps "doc" [] DocError.notFound rfl).2.2
      (DocError.remote "offline") (.ok ())⟩

end RevStore
